import Mathlib

/-
Verification of the join/session bridge of the killer-queen repository
(src/src/join.rs and src/src/main.rs), as a shallow embedding in Lean.

Conventions of the embedding:
- Rust i32 identities are Int, Bevy entity ids are Nat.
- f32 fields (x_movement, transform coordinates, delay) are never inspected
  by the join logic; they are carried opaquely and modelled as Int.
- Bevy HashSet / HashMap resources are modelled as lists with membership,
  insertion and removal by key; resources accessed through ResMut mutate
  immediately during a system run.
- Bevy queries are snapshots of the world frozen at the start of a system
  run; Commands (despawn, spawn, remove component) are deferred and applied
  after the system finishes. The embedding threads an explicit record of
  deferred commands and applies it at the end of the tick, exactly as Bevy
  applies the command queue at the next sync point.
-/

namespace KillerQueen

/-- The two teams, from player.rs as used throughout join.rs. -/
inductive Team
  | Yellow
  | Purple
deriving DecidableEq

/-- The wire-level controller sample (join.rs, struct ControllerState):
player id, team flag, leave flag, movement and jump. x_movement is f32 in
the source, carried opaquely, modelled as Int. -/
structure ControllerState where
  player : Int
  is_purple : Bool
  is_leaving : Bool
  x_movement : Int
  jump : Bool
deriving DecidableEq

/-- Modelled from the spec: the controller variant held by a Player
component, ControllerSource = Network(identity) or Local(device); the
declaration lives in player.rs (not under src/) but both variants appear in
join.rs exactly as below (PlayerController.Gamepad in join and disconnect,
PlayerController.WebSocket in join_from_websocket). -/
inductive PlayerController
  | Gamepad (gamepad : Nat)
  | WebSocket (state : ControllerState)
deriving DecidableEq

/-- One row of the action_query of join.rs: a live player entity together
with the components the join systems read (Entity, Player controller,
Has Berry, Transform, Option RidingOnShip, Team, Has Queen). -/
structure PlayerEntity where
  entity : Nat
  player_controller : PlayerController
  has_berry : Bool
  transform : Int × Int
  riding_on_ship : Option Nat
  team : Team
  is_queen : Bool
deriving DecidableEq

/-- Modelled from the spec: gates.rs is not under src/; join.rs only reads a
JoinGate entity, its optional Team component and its sprite index. The
concrete value of the neutral sprite index is immaterial to every claim. -/
def GATE_NEUTRAL_IDX : Nat := 0

/-- A join gate entity as seen by join.rs: entity id, optional Team
component, and the TextureAtlas sprite index. -/
structure Gate where
  entity : Nat
  team : Option Team
  sprite_index : Nat
deriving DecidableEq

/-- The simulation world as far as the join systems read or write it:
live player entities, spawned berry positions, ship entities with their
optional Team component, and the join gates. -/
structure World where
  players : List PlayerEntity
  berries : List (Int × Int)
  ships : List (Nat × Option Team)
  gates : List Gate
deriving DecidableEq

/-- The deferred Bevy command queue produced by one system run: despawned
entities, berry spawn positions, ships whose Team component is removed, and
gates whose Team component is removed. -/
structure Commands where
  despawned : List Nat
  berry_spawns : List (Int × Int)
  ship_team_removed : List Nat
  gate_team_removed : List Nat
deriving DecidableEq

/-- The empty command queue. -/
def noCommands : Commands := ⟨[], [], [], []⟩

/-- remove_player (join.rs lines 332-354): despawn the player entity, spawn
a berry at its transform when it carried one, and remove the Team component
from the ship it was riding, all as deferred commands. -/
def remove_player (c : Commands) (p : PlayerEntity) : Commands :=
  let c := { c with despawned := c.despawned ++ [p.entity] }
  let c :=
    if p.has_berry then { c with berry_spawns := c.berry_spawns ++ [p.transform] } else c
  match p.riding_on_ship with
  | some ship => { c with ship_team_removed := c.ship_team_removed ++ [ship] }
  | none => c

/-- The queen-leave gate reset loop shared by join_from_websocket (lines
236-243) and disconnect (lines 320-325): for every join gate whose Team
equals the leaving queen team, issue a deferred removal of its Team
component and set its sprite index to neutral immediately (the sprite is a
Mut access, the component removal a command). -/
def clearGatesForTeam (c : Commands) (gates : List Gate) (team : Team) :
    Commands × List Gate :=
  ({ c with gate_team_removed :=
      c.gate_team_removed ++
        ((gates.filter (fun g => decide (g.team = some team))).map Gate.entity) },
   gates.map (fun g =>
     if g.team = some team then { g with sprite_index := GATE_NEUTRAL_IDX } else g))

/-- The queens query of join.rs (Query of Team With Queen) over a frozen
world snapshot: the teams of the live players holding the Queen component. -/
def queensOf (w : World) : List Team :=
  (w.players.filter (fun p => p.is_queen)).map (fun p => p.team)

/-- Applying the deferred command queue of one system run to the world it
was recorded against, together with a working gates list whose sprite
mutations were immediate. -/
def applyCommands (w0 : World) (c : Commands) (gates : List Gate) : World :=
  { players := w0.players.filter (fun p => decide (p.entity ∉ c.despawned)),
    berries := w0.berries ++ c.berry_spawns,
    ships := w0.ships.map (fun s => if s.1 ∈ c.ship_team_removed then (s.1, none) else s),
    gates := gates.map (fun g =>
      if g.entity ∈ c.gate_team_removed then { g with team := none } else g) }

/-- The SpawnPlayerEvent of player.rs as sent by join.rs: team, leadership
flag, controller, spawn delay (f32 in the source, always 0.0 here, modelled
as Int) and invincibility flag. -/
structure SpawnPlayerEvent where
  team : Team
  is_queen : Bool
  player_controller : PlayerController
  delay : Int
  start_invincible : Bool
deriving DecidableEq

/-- The resources of join.rs owned by the simulation thread: the
JoinedWebSockets roster, the WebSocketControllers table, and the world. -/
structure SimState where
  joined_websockets : List Int
  web_socket_controllers : List (Int × ControllerState)
  world : World
deriving DecidableEq

/-- The mutable state threaded through the drain loop of
join_from_websocket: the two ResMut resources (mutated immediately), the
deferred command queue, the working gates list, and the events sent. -/
structure DrainAcc where
  joined_websockets : List Int
  web_socket_controllers : List (Int × ControllerState)
  cmds : Commands
  gates : List Gate
  events : List SpawnPlayerEvent
deriving DecidableEq

/-- The body of the leave loop of join_from_websocket (join.rs lines
214-248) for one row of the frozen action_query: the source matches
player.player_controller against the bare name WebSocket, and since
tungstenite.WebSocket is not a unit struct that pattern is an identifier
pattern binding any value, so the first arm matches every live player (the
underscore arm at line 246 is unreachable): remove_player runs for every
row, and the gate reset runs for every queen row. -/
def leaveStep (acc : DrainAcc) (p : PlayerEntity) : DrainAcc :=
  let acc1 := { acc with cmds := remove_player acc.cmds p }
  if p.is_queen then
    let r := clearGatesForTeam acc1.cmds acc1.gates p.team
    { acc1 with cmds := r.1, gates := r.2 }
  else acc1

/-- One iteration of the while-let drain loop of join_from_websocket
(join.rs lines 210-273) on one received ControllerState. w0 and queens0 are
the frozen query snapshots of the system run. Note the branch for an
identity not in the roster sends a join event whether or not the sample is
a leave signal: the else arm at lines 255-273 never reads is_leaving. -/
def processSample (w0 : World) (queens0 : List Team) (acc : DrainAcc)
    (controller_update : ControllerState) : DrainAcc :=
  let player_id := controller_update.player
  if player_id ∈ acc.joined_websockets then
    if controller_update.is_leaving then
      let acc := w0.players.foldl leaveStep acc
      { acc with joined_websockets :=
          acc.joined_websockets.filter (fun x => decide (x ≠ player_id)) }
    else
      { acc with web_socket_controllers :=
          (player_id, controller_update) ::
            acc.web_socket_controllers.filter (fun kv => decide (kv.1 ≠ player_id)) }
  else
    let team := if controller_update.is_purple then Team.Purple else Team.Yellow
    let is_queen := decide (team ∉ queens0)
    { acc with
      events := acc.events ++
        [{ team := team, is_queen := is_queen,
           player_controller := PlayerController.WebSocket controller_update,
           delay := 0, start_invincible := false }],
      joined_websockets := acc.joined_websockets ++ [player_id] }

/-- The drain state of join_from_websocket at the start of a system run:
the two resources as they stand, no commands yet, the gates of the world,
no events yet. -/
def drainInit (st : SimState) : DrainAcc :=
  { joined_websockets := st.joined_websockets,
    web_socket_controllers := st.web_socket_controllers,
    cmds := noCommands, gates := st.world.gates, events := [] }

/-- join_from_websocket (join.rs lines 188-278): lock the consumer side of
the channel (none models a poisoned lock, Err branch line 276), drain the
queue to exhaustion against the frozen world snapshot, then apply the
deferred commands. Returns the updated resources and world together with
the SpawnPlayerEvents sent. -/
def join_from_websocket (receiver : Option (List ControllerState)) (st : SimState) :
    SimState × List SpawnPlayerEvent :=
  match receiver with
  | none => (st, [])
  | some queue =>
    let acc := queue.foldl (processSample st.world (queensOf st.world)) (drainInit st)
    ({ joined_websockets := acc.joined_websockets,
       web_socket_controllers := acc.web_socket_controllers,
       world := applyCommands st.world acc.cmds acc.gates }, acc.events)

/-- One gamepad as seen by the join system of join.rs (lines 136-174): its
id and whether each bumper was just pressed this tick. -/
structure GamepadInput where
  gamepad : Nat
  left_trigger_just_pressed : Bool
  right_trigger_just_pressed : Bool
deriving DecidableEq

/-- One iteration of the gamepad loop of join (join.rs lines 143-173):
when either bumper was just pressed, pick the team from the bumper, compute
the leadership flag from the frozen queens snapshot, and if the gamepad is
not yet in JoinedGamepads send a SpawnPlayerEvent and insert it. -/
def joinStep (queens0 : List Team) (acc : List Nat × List SpawnPlayerEvent)
    (gp : GamepadInput) : List Nat × List SpawnPlayerEvent :=
  if gp.left_trigger_just_pressed || gp.right_trigger_just_pressed then
    let team := if gp.left_trigger_just_pressed then Team.Yellow else Team.Purple
    let is_queen := decide (team ∉ queens0)
    if gp.gamepad ∈ acc.1 then acc
    else
      (acc.1 ++ [gp.gamepad],
       acc.2 ++
         [{ team := team, is_queen := is_queen,
            player_controller := PlayerController.Gamepad gp.gamepad,
            delay := 0, start_invincible := false }])
  else acc

/-- The join system of join.rs (lines 136-174) over one tick: fold the
gamepad loop over the connected gamepads against the frozen queens snapshot
of the world. Returns the updated JoinedGamepads roster and the events
sent. -/
def join (gamepads : List GamepadInput) (w : World) (joined_gamepads : List Nat) :
    List Nat × List SpawnPlayerEvent :=
  gamepads.foldl (joinStep (queensOf w)) (joined_gamepads, [])

/-- The mutable state threaded through the player loop of disconnect:
the JoinedGamepads resource, the deferred commands and the working gates. -/
structure DisconnectAcc where
  joined_gamepads : List Nat
  cmds : Commands
  gates : List Gate
deriving DecidableEq

/-- The disconnect system of join.rs (lines 280-329): for every live player
whose Disconnect action is pressed (given here as the set of such entity
ids), remove its gamepad from JoinedGamepads, run remove_player, and when
it was a queen reset that team gates. Commands are applied at the end. -/
def disconnect (disconnecting : List Nat) (joined_gamepads : List Nat) (w0 : World) :
    List Nat × World :=
  let acc := w0.players.foldl
    (fun (acc : DisconnectAcc) p =>
      if p.entity ∈ disconnecting then
        let acc :=
          match p.player_controller with
          | PlayerController.Gamepad g =>
            { acc with joined_gamepads :=
                acc.joined_gamepads.filter (fun x => decide (x ≠ g)) }
          | PlayerController.WebSocket _ => acc
        let acc := { acc with cmds := remove_player acc.cmds p }
        if p.is_queen then
          let r := clearGatesForTeam acc.cmds acc.gates p.team
          { acc with cmds := r.1, gates := r.2 }
        else acc
      else acc)
    ⟨joined_gamepads, noCommands, w0.gates⟩
  (acc.joined_gamepads, applyCommands w0 acc.cmds acc.gates)

/-- The freshly materialized player entities for a list of join events,
numbered from next_id. -/
def spawnList (next_id : Nat) : List SpawnPlayerEvent → List PlayerEntity
  | [] => []
  | ev :: rest =>
    { entity := next_id, player_controller := ev.player_controller,
      has_berry := false, transform := (0, 0), riding_on_ship := none,
      team := ev.team, is_queen := ev.is_queen } :: spawnList (next_id + 1) rest

/-- Modelled from the spec: the spawn system of player.rs (not under src/)
that consumes SpawnPlayerEvent, per section 6 of the spec a JoinEvent is
consumed by a spawn system to materialize a player entity; each event
materializes one live player entity carrying the event team, leadership
flag and controller identity, holding no berry and riding no ship. -/
def spawnPlayers (w : World) (next_id : Nat) (events : List SpawnPlayerEvent) : World :=
  { w with players := w.players ++ spawnList next_id events }

/-- A running game on the simulation thread: the join resources and world,
a fresh entity id counter, and all events emitted so far. -/
structure GameRun where
  st : SimState
  next_id : Nat
  events : List SpawnPlayerEvent
deriving DecidableEq

/-- One simulation tick of the websocket path: run join_from_websocket on
the drained queue, then let the (spec-modelled) spawn system materialize
the players for the events it sent. -/
def stepGame (g : GameRun) (queue : List ControllerState) : GameRun :=
  let r := join_from_websocket (some queue) g.st
  { st := { r.1 with world := spawnPlayers r.1.world g.next_id r.2 },
    next_id := g.next_id + r.2.length,
    events := g.events ++ r.2 }

/-- A sequence of simulation ticks, each draining one queue of samples. -/
def runGame (g : GameRun) (queues : List (List ControllerState)) : GameRun :=
  queues.foldl stepGame g

/-- One tick of the gamepad join system inside a multi-tick run: run join
on this tick inputs and world snapshot against the persistent JoinedGamepads
roster, and append the events it sent. -/
def gamepadTickStep (acc : List Nat × List SpawnPlayerEvent)
    (t : List GamepadInput × World) : List Nat × List SpawnPlayerEvent :=
  let r := join t.1 t.2 acc.1
  (r.1, acc.2 ++ r.2)

/-- A sequence of ticks of the gamepad join system: each tick supplies the
gamepad inputs and the world snapshot of that tick; the JoinedGamepads
roster persists across ticks and the events accumulate. -/
def runGamepadTicks (joined : List Nat) (ticks : List (List GamepadInput × World)) :
    List Nat × List SpawnPlayerEvent :=
  ticks.foldl gamepadTickStep (joined, [])

/-- Whether a join event is the websocket join of identity P. -/
def isWsJoinFor (P : Int) (ev : SpawnPlayerEvent) : Bool :=
  match ev.player_controller with
  | PlayerController.WebSocket cs => decide (cs.player = P)
  | PlayerController.Gamepad _ => false

/-- Whether a join event is the join of local gamepad g. -/
def isGamepadJoinFor (g : Nat) (ev : SpawnPlayerEvent) : Bool :=
  match ev.player_controller with
  | PlayerController.Gamepad g2 => decide (g2 = g)
  | PlayerController.WebSocket _ => false

/-- The outcome of one read-plus-decode step of the connection handler loop
(main.rs lines 111-116): either a frame that decoded to a ControllerState,
or a failure (read error or malformed payload, either unwrap panics). -/
inductive FrameResult
  | ok (state : ControllerState)
  | fail
deriving DecidableEq

/-- The handler loop of main.rs (lines 111-116): forward each decoded frame
to the channel; the first read or decode failure panics the handler thread,
so nothing after it (and nothing synthesized) is ever sent. An exhausted
input list models a connection still blocked in read. -/
def handlerForward : List FrameResult → List ControllerState
  | [] => []
  | FrameResult.ok s :: rest => s :: handlerForward rest
  | FrameResult.fail :: _ => []

/-- One connection handler (main.rs lines 108-117): the accept handshake
(line 109) must succeed before the loop runs; a handshake failure panics
the thread before anything is sent. Returns the messages this connection
delivered to the Session Ingress Queue. -/
def connectionHandler (handshake_ok : Bool) (frames : List FrameResult) :
    List ControllerState :=
  if handshake_ok then handlerForward frames else []

/-- The ControllerStates of the frames of a connection that decode
successfully, in order: the most a connection could ever deliver. -/
def decodedFrames (frames : List FrameResult) : List ControllerState :=
  frames.filterMap fun f =>
    match f with
    | FrameResult.ok s => some s
    | FrameResult.fail => none

/-- The possible states of the websocket server thread of main.rs. -/
inductive ThreadOutcome
  | panicked
  | running
deriving DecidableEq

/-- The observable control flow of main (main.rs lines 50-97 and 99-121):
the outcome of the spawned websocket thread, whether App::run was reached
on the main thread, and whether the main thread panicked after the app
exited. -/
structure MainTrace where
  web_socket_thread : ThreadOutcome
  app_ran : Bool
  main_panicked : Bool
deriving DecidableEq

/-- setup_controller_websocket (main.rs lines 99-121): the TcpListener bind
and its unwrap happen inside the spawned thread (lines 103-104), so a bind
failure panics that thread only; the function itself always returns the
thread handle and the receiver to main. -/
def setup_controller_websocket (bind_ok : Bool) : ThreadOutcome :=
  if bind_ok then ThreadOutcome.running else ThreadOutcome.panicked

/-- main (main.rs lines 50-97): call setup_controller_websocket, then
unconditionally build and run the App; only after App::run returns does
main join the websocket thread, whose expect panics the main thread iff
that thread panicked. -/
def mainFlow (bind_ok : Bool) : MainTrace :=
  let t := setup_controller_websocket bind_ok
  { web_socket_thread := t, app_ran := true,
    main_panicked := decide (t = ThreadOutcome.panicked) }

/-- The game states of main.rs (lines 123-129). -/
inductive GameState
  | Join
  | Play
  | GameOver
deriving DecidableEq

/-- The run_if(in_state(s)) run condition of Bevy as used in join.rs. -/
def in_state (s : GameState) : GameState → Bool := fun cur => decide (cur = s)

/-- The always-run condition of a system added with no run_if. -/
def run_always : GameState → Bool := fun _ => true

/-- An Update-schedule system of the JoinPlugin with its run condition. -/
structure UpdateSystem where
  name : String
  runs_in : GameState → Bool

/-- The Update systems registered by JoinPlugin::build (join.rs lines
36-52): check_for_start_game and disconnect gated by
run_if(in_state(GameState::Join)), join and join_from_websocket ungated. -/
def joinPluginUpdateSystems : List UpdateSystem :=
  [ { name := "check_for_start_game", runs_in := in_state GameState.Join },
    { name := "disconnect", runs_in := in_state GameState.Join },
    { name := "join", runs_in := run_always },
    { name := "join_from_websocket", runs_in := run_always } ]

/-
Concrete inputs used by counterexamples, code-bug evaluations and
witnesses. Identities are arbitrary small values; x_movement and jump are
carried opaquely.
-/

/-- A first non-leaving sample of identity 7 (yellow team). -/
def cs7 : ControllerState := ⟨7, false, false, 0, false⟩

/-- A later non-leaving sample of identity 7 with different movement. -/
def u7 : ControllerState := ⟨7, false, false, 1, true⟩

/-- A leave sample of identity 7. -/
def l7 : ControllerState := ⟨7, false, true, 0, false⟩

/-- A leave sample of identity 5, an identity that never joined. -/
def s5leave : ControllerState := ⟨5, false, true, 0, false⟩

/-- A non-leaving sample of identity 1, yellow team. -/
def sA : ControllerState := ⟨1, false, false, 0, false⟩

/-- A non-leaving sample of identity 2, yellow team. -/
def sB : ControllerState := ⟨2, false, false, 0, false⟩

/-- The empty world: no players, berries, ships or gates. -/
def emptyWorld : World := ⟨[], [], [], []⟩

/-- The initial simulation state: empty roster, empty table, empty world. -/
def st0 : SimState := ⟨[], [], emptyWorld⟩

/-- A live player entity controlled by websocket identity 7. -/
def pw : PlayerEntity :=
  ⟨1, PlayerController.WebSocket cs7, false, (0, 0), none, Team.Yellow, false⟩

/-- A live player entity controlled by local gamepad 0. -/
def pg : PlayerEntity :=
  ⟨2, PlayerController.Gamepad 0, false, (3, 4), none, Team.Purple, false⟩

/-- A state where identity 7 is in the roster and two players are live:
the websocket player of identity 7 and an unrelated gamepad player. -/
def st1 : SimState := ⟨[7], [], ⟨[pw, pg], [], [], []⟩⟩

/-- The join event produced by the first yellow join of identity 1. -/
def evA : SpawnPlayerEvent :=
  ⟨Team.Yellow, true, PlayerController.WebSocket sA, 0, false⟩

/-- The join event produced by the yellow join of identity 2. -/
def evB : SpawnPlayerEvent :=
  ⟨Team.Yellow, true, PlayerController.WebSocket sB, 0, false⟩

/-- The player entity materialized for evA with fresh id 10. -/
def pA : PlayerEntity :=
  ⟨10, PlayerController.WebSocket sA, false, (0, 0), none, Team.Yellow, true⟩

/-- A join gesture on local gamepad 0: left bumper just pressed. -/
def gpL : GamepadInput := ⟨0, true, false⟩

/-
Helper lemmas: field invariance of the leave loop, branch characterizations
of processSample, and basic facts about applyCommands and spawnList.
-/

theorem leaveStep_events (acc : DrainAcc) (p : PlayerEntity) :
    (leaveStep acc p).events = acc.events := by
  simp only [leaveStep]
  split <;> rfl

theorem leaveStep_joined (acc : DrainAcc) (p : PlayerEntity) :
    (leaveStep acc p).joined_websockets = acc.joined_websockets := by
  simp only [leaveStep]
  split <;> rfl

theorem leaveStep_table (acc : DrainAcc) (p : PlayerEntity) :
    (leaveStep acc p).web_socket_controllers = acc.web_socket_controllers := by
  simp only [leaveStep]
  split <;> rfl

theorem foldl_leaveStep_events (players : List PlayerEntity) (acc : DrainAcc) :
    (players.foldl leaveStep acc).events = acc.events := by
  induction players generalizing acc with
  | nil => rfl
  | cons p ps ih => rw [List.foldl_cons, ih, leaveStep_events]

theorem foldl_leaveStep_joined (players : List PlayerEntity) (acc : DrainAcc) :
    (players.foldl leaveStep acc).joined_websockets = acc.joined_websockets := by
  induction players generalizing acc with
  | nil => rfl
  | cons p ps ih => rw [List.foldl_cons, ih, leaveStep_joined]

theorem foldl_leaveStep_table (players : List PlayerEntity) (acc : DrainAcc) :
    (players.foldl leaveStep acc).web_socket_controllers = acc.web_socket_controllers := by
  induction players generalizing acc with
  | nil => rfl
  | cons p ps ih => rw [List.foldl_cons, ih, leaveStep_table]

theorem processSample_mem_leaving (w0 : World) (q0 : List Team) (acc : DrainAcc)
    (s : ControllerState) (hmem : s.player ∈ acc.joined_websockets)
    (hl : s.is_leaving = true) :
    processSample w0 q0 acc s =
      { w0.players.foldl leaveStep acc with
        joined_websockets :=
          (w0.players.foldl leaveStep acc).joined_websockets.filter
            (fun x => decide (x ≠ s.player)) } := by
  simp only [processSample, hl, if_pos hmem, if_true]

theorem processSample_mem_not_leaving (w0 : World) (q0 : List Team) (acc : DrainAcc)
    (s : ControllerState) (hmem : s.player ∈ acc.joined_websockets)
    (hl : s.is_leaving = false) :
    processSample w0 q0 acc s =
      { acc with web_socket_controllers :=
          (s.player, s) ::
            acc.web_socket_controllers.filter (fun kv => decide (kv.1 ≠ s.player)) } := by
  simp only [processSample, hl, if_pos hmem, if_false, Bool.false_eq_true]

theorem processSample_not_mem (w0 : World) (q0 : List Team) (acc : DrainAcc)
    (s : ControllerState) (hmem : s.player ∉ acc.joined_websockets) :
    processSample w0 q0 acc s =
      { acc with
        events := acc.events ++
          [{ team := if s.is_purple then Team.Purple else Team.Yellow,
             is_queen := decide ((if s.is_purple then Team.Purple else Team.Yellow) ∉ q0),
             player_controller := PlayerController.WebSocket s,
             delay := 0, start_invincible := false }],
        joined_websockets := acc.joined_websockets ++ [s.player] } := by
  simp only [processSample, if_neg hmem]

theorem applyCommands_noCommands (w : World) :
    applyCommands w noCommands w.gates = w := by
  cases w with
  | mk players berries ships gates =>
    simp [applyCommands, noCommands]

theorem mem_applyCommands_players (w : World) (c : Commands) (gates : List Gate)
    (p : PlayerEntity) (h : p ∈ (applyCommands w c gates).players) : p ∈ w.players := by
  simp only [applyCommands, List.mem_filter] at h
  exact h.1

theorem mem_spawnList (next_id : Nat) (events : List SpawnPlayerEvent)
    (p : PlayerEntity) (h : p ∈ spawnList next_id events) :
    ∃ ev, ev ∈ events ∧ p.team = ev.team ∧ p.is_queen = ev.is_queen ∧
      p.player_controller = ev.player_controller := by
  induction events generalizing next_id with
  | nil => cases h
  | cons ev rest ih =>
    rcases List.mem_cons.mp h with h1 | h2
    · exact ⟨ev, List.mem_cons_self _ _, by rw [h1], by rw [h1], by rw [h1]⟩
    · obtain ⟨ev2, hmem, hrest⟩ := ih _ h2
      exact ⟨ev2, List.mem_cons_of_mem _ hmem, hrest⟩

theorem join_from_websocket_some_fst (queue : List ControllerState) (st : SimState) :
    (join_from_websocket (some queue) st).1 =
      { joined_websockets :=
          (queue.foldl (processSample st.world (queensOf st.world))
            (drainInit st)).joined_websockets,
        web_socket_controllers :=
          (queue.foldl (processSample st.world (queensOf st.world))
            (drainInit st)).web_socket_controllers,
        world := applyCommands st.world
          (queue.foldl (processSample st.world (queensOf st.world)) (drainInit st)).cmds
          (queue.foldl (processSample st.world (queensOf st.world)) (drainInit st)).gates } :=
  rfl

theorem join_from_websocket_some_snd (queue : List ControllerState) (st : SimState) :
    (join_from_websocket (some queue) st).2 =
      (queue.foldl (processSample st.world (queensOf st.world)) (drainInit st)).events :=
  rfl

theorem foldl_processSample_is_queen (w0 : World) (q0 : List Team)
    (l : List ControllerState) (acc : DrainAcc)
    (h : ∀ ev ∈ acc.events, ev.is_queen = decide (ev.team ∉ q0)) :
    ∀ ev ∈ (l.foldl (processSample w0 q0) acc).events,
      ev.is_queen = decide (ev.team ∉ q0) := by
  induction l generalizing acc with
  | nil => exact h
  | cons s rest ih =>
    rw [List.foldl_cons]
    refine ih _ ?_
    intro ev hev
    by_cases hmem : s.player ∈ acc.joined_websockets
    · by_cases hl : s.is_leaving = true
      · rw [processSample_mem_leaving w0 q0 acc s hmem hl] at hev
        simp only [foldl_leaveStep_events] at hev
        exact h ev hev
      · rw [processSample_mem_not_leaving w0 q0 acc s hmem
          (Bool.not_eq_true _ ▸ hl)] at hev
        exact h ev hev
    · rw [processSample_not_mem w0 q0 acc s hmem] at hev
      rcases List.mem_append.mp hev with h1 | h2
      · exact h ev h1
      · rw [List.mem_singleton.mp h2]

/-- Every event sent by one run of join_from_websocket carries the
leadership flag computed from the queens snapshot frozen at the start of
the run: is_queen is true exactly when the event team had no live queen
when the system began draining. -/
theorem join_events_is_queen (queue : List ControllerState) (st : SimState)
    (ev : SpawnPlayerEvent) (h : ev ∈ (join_from_websocket (some queue) st).2) :
    ev.is_queen = decide (ev.team ∉ queensOf st.world) := by
  rw [join_from_websocket_some_snd] at h
  exact foldl_processSample_is_queen st.world (queensOf st.world) queue (drainInit st)
    (by intro ev2 hev2; cases hev2) ev h

theorem handlerForward_ok_prefix (pre : List ControllerState) (rest : List FrameResult) :
    handlerForward (pre.map FrameResult.ok ++ FrameResult.fail :: rest) = pre := by
  induction pre with
  | nil => rfl
  | cons s ss ih =>
    simp only [List.map_cons, List.cons_append, handlerForward, List.append_eq, ih]

theorem handlerForward_sublist (frames : List FrameResult) :
    List.Sublist (handlerForward frames) (decodedFrames frames) := by
  induction frames with
  | nil => exact List.Sublist.refl _
  | cons f rest ih =>
    cases f with
    | ok s => exact List.Sublist.cons₂ s ih
    | fail => exact List.nil_sublist _

/-- C1 (code_bug): evaluating the code at the failing input. In st1 the
roster is just identity 7 and two players are live: the websocket player of
identity 7 and an unrelated player on local gamepad 0. Processing the leave
sample of identity 7 despawns BOTH players, because the match arm written
WebSocket in join.rs line 226 is an identifier pattern that binds every
controller value, so remove_player runs for every row of the query; the
claim says only the player whose controller matches identity 7 is
despawned and every other live player is left unchanged. -/
theorem c1_leave_despawns_every_player :
    pg ∈ st1.world.players ∧ pg.player_controller = PlayerController.Gamepad 0 ∧
    (join_from_websocket (some [l7]) st1).1.world.players = [] := by
  decide

/-- C2 (code_bug): evaluating the code at the failing input. Identity 5 is
not in the roster of st0 and sends a leave sample; the claim and the spec
say this is a no-op, but the else branch of join_from_websocket (join.rs
lines 255-273) never reads is_leaving: the code emits a join event for the
departing identity and adds it to the roster. -/
theorem c2_leave_for_unknown_identity_joins :
    (5 : Int) ∉ st0.joined_websockets ∧ s5leave.is_leaving = true ∧
    (join_from_websocket (some [s5leave]) st0).2 =
      [{ team := Team.Yellow, is_queen := true,
         player_controller := PlayerController.WebSocket s5leave,
         delay := 0, start_invincible := false }] ∧
    (join_from_websocket (some [s5leave]) st0).1.joined_websockets = [5] := by
  decide

/-- C7 counterexample: with the bind failing, the app still runs. The
TcpListener bind and its unwrap sit inside the thread spawned by
setup_controller_websocket (main.rs lines 103-104), so the bind failure
panics only that background thread; main still reaches App::run, so
startup does not abort and the process proceeds. -/
theorem c7_bind_failure_app_still_runs :
    (mainFlow false).app_ran = true ∧
    (mainFlow false).web_socket_thread = ThreadOutcome.panicked := by
  decide

/-- C7 (amended): a bind failure panics the websocket accept thread (so no
connection is ever accepted), but the main thread still builds and runs the
app; the failure is surfaced on the main thread only after App::run
returns, when joining the panicked thread makes the expect panic. -/
theorem c7_bind_failure_panics_thread_only :
    ∀ b : Bool,
      (mainFlow b).app_ran = true ∧
      ((mainFlow b).web_socket_thread =
        if b then ThreadOutcome.running else ThreadOutcome.panicked) ∧
      (mainFlow b).main_panicked = !b := by
  decide

/-- C8 (confirmed): when the handshake, a read, or a decode of a connection
fails, the handler delivers exactly the messages decoded before the first
failure and nothing else: the forwarded list of a failing connection equals
the forwarded list of the connection that just ended there, so the Join
Reconciler computes the same roster, table and leadership state as if the
failure had never produced a message; a handshake failure delivers nothing;
and in general every message a handler delivers is the decode of one of its
frames (nothing, in particular no leave, is ever synthesized). -/
theorem c8_connection_failure_delivers_nothing :
    ∀ (pre : List ControllerState) (rest : List FrameResult) (st : SimState),
      connectionHandler true (pre.map FrameResult.ok ++ FrameResult.fail :: rest) = pre ∧
      connectionHandler false (pre.map FrameResult.ok ++ FrameResult.fail :: rest) = [] ∧
      join_from_websocket
        (some (connectionHandler true (pre.map FrameResult.ok ++ FrameResult.fail :: rest)))
        st = join_from_websocket (some pre) st ∧
      ∀ frames : List FrameResult,
        List.Sublist (connectionHandler true frames) (decodedFrames frames) := by
  intro pre rest st
  refine ⟨?_, rfl, ?_, ?_⟩
  · exact handlerForward_ok_prefix pre rest
  · rw [show connectionHandler true (pre.map FrameResult.ok ++ FrameResult.fail :: rest)
        = pre from handlerForward_ok_prefix pre rest]
  · intro frames
    exact handlerForward_sublist frames

/-- C9 (confirmed): draining when the channel lock is poisoned (Err branch,
join.rs line 276) and draining an empty queue both leave the whole
simulation state unchanged, world (hence team leadership), roster and
table included, and emit no events. -/
theorem c9_empty_drain_is_noop :
    ∀ st : SimState,
      join_from_websocket none st = (st, []) ∧
      join_from_websocket (some []) st = (st, []) := by
  intro st
  refine ⟨rfl, ?_⟩
  have h : join_from_websocket (some []) st =
      ({ joined_websockets := st.joined_websockets,
         web_socket_controllers := st.web_socket_controllers,
         world := applyCommands st.world noCommands st.world.gates }, []) := rfl
  rw [h, applyCommands_noCommands]

/-- C10 (confirmed): the Update systems registered by JoinPlugin and their
run conditions: join and join_from_websocket run in every game state (Join,
Play and GameOver), while check_for_start_game and disconnect run exactly
when the state is Join. -/
theorem c10_join_systems_schedule :
    ∀ s : GameState,
      joinPluginUpdateSystems.map (fun sys => (sys.name, sys.runs_in s)) =
        [("check_for_start_game", decide (s = GameState.Join)),
         ("disconnect", decide (s = GameState.Join)),
         ("join", true),
         ("join_from_websocket", true)] := by
  intro s
  cases s <;> rfl

/-- C3 counterexample: identity 7 joins, sends an update (stored in the
Controller State Table), then leaves. After the drain 7 is gone from the
roster, but the leave branch of join_from_websocket (join.rs lines 213-249)
only removes the identity from JoinedWebSockets and never touches
WebSocketControllers: the table still maps 7 to its last non-leaving
sample, while the claim says 7 is absent from both. -/
theorem c3_table_entry_survives_leave :
    (join_from_websocket (some [cs7, u7, l7]) st0).1.joined_websockets = [] ∧
    (join_from_websocket (some [cs7, u7, l7]) st0).1.web_socket_controllers = [(7, u7)] := by
  decide

/-- C3 (amended): after a leave sample for a previously joined identity P,
P is absent from the Session Roster and a subsequent non-leaving sample for
P produces exactly one new join event; the Controller State Table, however,
is left exactly as it was, so an entry for P survives the leave. -/
theorem c3_leave_clears_roster_not_table :
    ∀ (st : SimState) (s s2 : ControllerState),
      s.is_leaving = true → s.player ∈ st.joined_websockets →
      s2.player = s.player → s2.is_leaving = false →
      s.player ∉ (join_from_websocket (some [s]) st).1.joined_websockets ∧
      (join_from_websocket (some [s]) st).1.web_socket_controllers =
        st.web_socket_controllers ∧
      ((join_from_websocket (some [s2]) (join_from_websocket (some [s]) st).1).2).countP
        (isWsJoinFor s.player) = 1 := by
  intro st s s2 hleave hmem hp2 hnl2
  have hfold : List.foldl (processSample st.world (queensOf st.world)) (drainInit st) [s] =
      processSample st.world (queensOf st.world) (drainInit st) s := by
    rw [List.foldl_cons, List.foldl_nil]
  have hps := processSample_mem_leaving st.world (queensOf st.world) (drainInit st) s
    hmem hleave
  have hj : (join_from_websocket (some [s]) st).1.joined_websockets =
      st.joined_websockets.filter (fun x => decide (x ≠ s.player)) := by
    rw [join_from_websocket_some_fst, hfold, hps]
    simp only [foldl_leaveStep_joined]
    rfl
  have ht : (join_from_websocket (some [s]) st).1.web_socket_controllers =
      st.web_socket_controllers := by
    rw [join_from_websocket_some_fst, hfold, hps]
    simp only []
    rw [foldl_leaveStep_table]
    rfl
  have hnotmem : s.player ∉ (join_from_websocket (some [s]) st).1.joined_websockets := by
    rw [hj]
    intro hc
    have := (List.mem_filter.mp hc).2
    simp at this
  refine ⟨hnotmem, ht, ?_⟩
  have hnotmem2 : s2.player ∉
      (drainInit (join_from_websocket (some [s]) st).1).joined_websockets := by
    rw [hp2]
    exact hnotmem
  have hfold2 : List.foldl
      (processSample (join_from_websocket (some [s]) st).1.world
        (queensOf (join_from_websocket (some [s]) st).1.world))
      (drainInit (join_from_websocket (some [s]) st).1) [s2] =
      processSample (join_from_websocket (some [s]) st).1.world
        (queensOf (join_from_websocket (some [s]) st).1.world)
        (drainInit (join_from_websocket (some [s]) st).1) s2 := by
    rw [List.foldl_cons, List.foldl_nil]
  rw [join_from_websocket_some_snd, hfold2,
    processSample_not_mem _ _ _ _ hnotmem2]
  simp only [List.countP_append, List.countP_cons, List.countP_nil, isWsJoinFor, hp2]
  simp [drainInit]

/-- C3 witness: identity 7 is joined in st1 and leaves; afterwards 7 is
out of the roster, the table is untouched, and the non-leaving sample u7
for identity 7 produces exactly one new join event. -/
theorem c3_leave_clears_roster_witness :
    (l7.is_leaving = true ∧ l7.player ∈ st1.joined_websockets ∧
     u7.player = l7.player ∧ u7.is_leaving = false) ∧
    (l7.player ∉ (join_from_websocket (some [l7]) st1).1.joined_websockets ∧
     (join_from_websocket (some [l7]) st1).1.web_socket_controllers =
       st1.web_socket_controllers ∧
     ((join_from_websocket (some [u7]) (join_from_websocket (some [l7]) st1).1).2).countP
       (isWsJoinFor l7.player) = 1) :=
  ⟨by decide,
   c3_leave_clears_roster_not_table st1 l7 u7 (by decide) (by decide) (by decide)
     (by decide)⟩

/-- C4 counterexample: two joins for the yellow team drained in the same
tick. The queens query is a snapshot frozen at the start of the system run
and the spawn of the first joiner is deferred, so the second join still
sees no live yellow queen: both events carry is_leader = true, while the
claim says every join emitted while a leader exists carries is_leader =
false, including joins drained within a single tick. -/
theorem c4_two_leaders_in_one_tick :
    (join_from_websocket (some [sA, sB]) st0).2 = [evA, evB] ∧
    evA.is_queen = true ∧ evB.is_queen = true ∧ evA.team = evB.team := by
  decide

/-- C4 (amended): the leadership flag of every join event of a tick is
computed from the queens snapshot frozen at the start of that tick: the
event carries is_leader = true exactly when its team had no live queen when
the drain began. Across ticks this gives first-join-gets-leadership, but
all joins for the same team drained within one tick see the same snapshot,
so each of them carries is_leader = true when the team started the tick
leaderless. -/
theorem c4_leader_flag_from_tick_snapshot :
    ∀ (st : SimState) (queue : List ControllerState) (ev : SpawnPlayerEvent),
      ev ∈ (join_from_websocket (some queue) st).2 →
      ev.is_queen = decide (ev.team ∉ queensOf st.world) := by
  intro st queue ev h
  exact join_events_is_queen queue st ev h

/-- C4 witness: the single yellow join of identity 1 from the empty state
is an event of the drain, and its leadership flag equals the frozen
snapshot computation (true, as st0 has no queens). -/
theorem c4_leader_flag_witness :
    evA ∈ (join_from_websocket (some [sA]) st0).2 ∧
    evA.is_queen = decide (evA.team ∉ queensOf st0.world) :=
  ⟨by decide, c4_leader_flag_from_tick_snapshot st0 [sA] evA (by decide)⟩

/-- C5 counterexample: identities 1 and 2 both join yellow within a single
tick of an empty game; the spawn system then materializes both events, and
two live players hold the Queen flag for the yellow team at once, while the
claim says at most one live player holds leadership for a team at any
tick. -/
theorem c5_two_live_queens_one_team :
    ((stepGame ⟨st0, 10, []⟩ [sA, sB]).st.world.players.countP
      (fun p => p.is_queen && decide (p.team = Team.Yellow))) = 2 := by
  decide

/-- C5 (amended): leadership only enters the world through join events:
every live player after a websocket tick is either a player that was
already live before it, with all components unchanged (so nobody is
auto-promoted when a leader leaves, and a team stays leaderless until its
next join), or a player materialized from one of the join events of the
tick; every event carrying is_leader = true is for a team with no live
queen at the start of the tick, so simultaneous joins for a leaderless
team in one tick can each gain leadership, and the at-most-one-leader
invariant holds only across ticks; the local disconnect path likewise only
removes players and never grants leadership to a remaining one. -/
theorem c5_leadership_only_from_join_events :
    ∀ (g : GameRun) (queue : List ControllerState) (d jg : List Nat) (w : World),
      (∀ p, p ∈ (stepGame g queue).st.world.players →
        p ∈ g.st.world.players ∨
          ∃ ev, ev ∈ (join_from_websocket (some queue) g.st).2 ∧
            p.team = ev.team ∧ p.is_queen = ev.is_queen ∧
            p.player_controller = ev.player_controller) ∧
      (∀ ev, ev ∈ (join_from_websocket (some queue) g.st).2 →
        ev.is_queen = decide (ev.team ∉ queensOf g.st.world)) ∧
      (∀ p, p ∈ (disconnect d jg w).2.players → p ∈ w.players) := by
  intro g queue d jg w
  refine ⟨?_, ?_, ?_⟩
  · intro p hp
    have hsplit : (stepGame g queue).st.world.players =
        (join_from_websocket (some queue) g.st).1.world.players ++
          spawnList g.next_id (join_from_websocket (some queue) g.st).2 := rfl
    rw [hsplit] at hp
    rcases List.mem_append.mp hp with h1 | h2
    · exact Or.inl (mem_applyCommands_players g.st.world _ _ p h1)
    · exact Or.inr (mem_spawnList g.next_id _ p h2)
  · intro ev h
    exact join_events_is_queen queue g.st ev h
  · intro p hp
    exact mem_applyCommands_players w _ _ p hp

/-- C5 witness: the player materialized for the single yellow join of
identity 1 from the empty game is live after the tick, and the theorem
places it among the players arising from the join events of that tick. -/
theorem c5_leadership_witness :
    pA ∈ (stepGame ⟨st0, 10, []⟩ [sA]).st.world.players ∧
    (pA ∈ st0.world.players ∨
      ∃ ev, ev ∈ (join_from_websocket (some [sA]) st0).2 ∧
        pA.team = ev.team ∧ pA.is_queen = ev.is_queen ∧
        pA.player_controller = ev.player_controller) :=
  ⟨by decide,
   (c5_leadership_only_from_join_events ⟨st0, 10, []⟩ [sA] [] [] emptyWorld).1 pA
     (by decide)⟩

theorem isWsJoinFor_ws_event (P : Int) (s : ControllerState) (t : Team) (q : Bool) :
    isWsJoinFor P
      { team := t, is_queen := q, player_controller := PlayerController.WebSocket s,
        delay := 0, start_invincible := false } = decide (s.player = P) := rfl

theorem processSample_count_inv (w0 : World) (q0 : List Team) (acc : DrainAcc)
    (s : ControllerState) (P : Int) (k : Nat)
    (hs : s.player = P → s.is_leaving = false)
    (h1 : k + acc.events.countP (isWsJoinFor P) ≤ 1)
    (h2 : k + acc.events.countP (isWsJoinFor P) = 1 → P ∈ acc.joined_websockets) :
    k + (processSample w0 q0 acc s).events.countP (isWsJoinFor P) ≤ 1 ∧
    (k + (processSample w0 q0 acc s).events.countP (isWsJoinFor P) = 1 →
      P ∈ (processSample w0 q0 acc s).joined_websockets) := by
  by_cases hmem : s.player ∈ acc.joined_websockets
  · by_cases hl : s.is_leaving = true
    · have hne : s.player ≠ P := by
        intro he
        rw [hs he] at hl
        cases hl
      rw [processSample_mem_leaving w0 q0 acc s hmem hl]
      simp only [foldl_leaveStep_events, foldl_leaveStep_joined]
      refine ⟨h1, ?_⟩
      intro hc
      refine List.mem_filter.mpr ⟨h2 hc, ?_⟩
      simp only [ne_eq, decide_eq_true_eq]
      exact fun h => hne h.symm
    · rw [processSample_mem_not_leaving w0 q0 acc s hmem (Bool.not_eq_true _ ▸ hl)]
      exact ⟨h1, h2⟩
  · rw [processSample_not_mem w0 q0 acc s hmem]
    simp only [List.countP_append, List.countP_cons, List.countP_nil,
      isWsJoinFor_ws_event, List.mem_append, List.mem_singleton]
    by_cases hP : s.player = P
    · have hcnt0 : k + acc.events.countP (isWsJoinFor P) = 0 := by
        rcases Nat.lt_or_ge (k + acc.events.countP (isWsJoinFor P)) 1 with h | h
        · omega
        · exact absurd (h2 (Nat.le_antisymm h1 h)) (hP ▸ hmem)
      rw [if_pos (decide_eq_true hP)]
      exact ⟨by omega, fun _ => Or.inr hP.symm⟩
    · rw [if_neg (fun h => hP (of_decide_eq_true h))]
      exact ⟨by omega, fun hc => Or.inl (h2 (by omega))⟩

theorem foldl_count_inv :
    ∀ (l : List ControllerState) (w0 : World) (q0 : List Team) (acc : DrainAcc)
      (P : Int) (k : Nat),
      (∀ s ∈ l, s.player = P → s.is_leaving = false) →
      k + acc.events.countP (isWsJoinFor P) ≤ 1 →
      (k + acc.events.countP (isWsJoinFor P) = 1 → P ∈ acc.joined_websockets) →
      k + (l.foldl (processSample w0 q0) acc).events.countP (isWsJoinFor P) ≤ 1 ∧
      (k + (l.foldl (processSample w0 q0) acc).events.countP (isWsJoinFor P) = 1 →
        P ∈ (l.foldl (processSample w0 q0) acc).joined_websockets) := by
  intro l
  induction l with
  | nil =>
    intro w0 q0 acc P k hl h1 h2
    exact ⟨h1, h2⟩
  | cons s rest ih =>
    intro w0 q0 acc P k hl h1 h2
    rw [List.foldl_cons]
    have hstep := processSample_count_inv w0 q0 acc s P k
      (hl s (List.mem_cons_self s rest)) h1 h2
    exact ih w0 q0 _ P k (fun t ht => hl t (List.mem_cons_of_mem s ht)) hstep.1 hstep.2

theorem stepGame_count_inv (gr : GameRun) (queue : List ControllerState) (P : Int)
    (hq : ∀ s ∈ queue, s.player = P → s.is_leaving = false)
    (h1 : gr.events.countP (isWsJoinFor P) ≤ 1)
    (h2 : gr.events.countP (isWsJoinFor P) = 1 → P ∈ gr.st.joined_websockets) :
    (stepGame gr queue).events.countP (isWsJoinFor P) ≤ 1 ∧
    ((stepGame gr queue).events.countP (isWsJoinFor P) = 1 →
      P ∈ (stepGame gr queue).st.joined_websockets) := by
  have hkey := foldl_count_inv queue gr.st.world (queensOf gr.st.world)
    (drainInit gr.st) P (gr.events.countP (isWsJoinFor P)) hq
    (by simpa [drainInit] using h1)
    (fun h => h2 (by simpa [drainInit] using h))
  have he : (stepGame gr queue).events =
      gr.events ++
        (queue.foldl (processSample gr.st.world (queensOf gr.st.world))
          (drainInit gr.st)).events := rfl
  have hj : (stepGame gr queue).st.joined_websockets =
      (queue.foldl (processSample gr.st.world (queensOf gr.st.world))
        (drainInit gr.st)).joined_websockets := rfl
  rw [he, List.countP_append]
  exact ⟨hkey.1, fun h => hj ▸ hkey.2 h⟩

theorem runGame_count_inv :
    ∀ (queues : List (List ControllerState)) (gr : GameRun) (P : Int),
      (∀ q ∈ queues, ∀ s ∈ q, s.player = P → s.is_leaving = false) →
      gr.events.countP (isWsJoinFor P) ≤ 1 →
      (gr.events.countP (isWsJoinFor P) = 1 → P ∈ gr.st.joined_websockets) →
      (runGame gr queues).events.countP (isWsJoinFor P) ≤ 1 := by
  intro queues
  induction queues with
  | nil =>
    intro gr P h h1 h2
    exact h1
  | cons q rest ih =>
    intro gr P h h1 h2
    have hstep := stepGame_count_inv gr q P (h q (List.mem_cons_self q rest)) h1 h2
    exact ih (stepGame gr q) P (fun t ht => h t (List.mem_cons_of_mem q ht))
      hstep.1 hstep.2

theorem isGamepadJoinFor_gp_event (g g2 : Nat) (t : Team) (q : Bool) :
    isGamepadJoinFor g
      { team := t, is_queen := q, player_controller := PlayerController.Gamepad g2,
        delay := 0, start_invincible := false } = decide (g2 = g) := rfl

theorem joinStep_count_inv (q0 : List Team) (acc : List Nat × List SpawnPlayerEvent)
    (gp : GamepadInput) (g : Nat) (k : Nat)
    (h1 : k + acc.2.countP (isGamepadJoinFor g) ≤ 1)
    (h2 : k + acc.2.countP (isGamepadJoinFor g) = 1 → g ∈ acc.1) :
    k + (joinStep q0 acc gp).2.countP (isGamepadJoinFor g) ≤ 1 ∧
    (k + (joinStep q0 acc gp).2.countP (isGamepadJoinFor g) = 1 →
      g ∈ (joinStep q0 acc gp).1) := by
  by_cases hpress :
      (gp.left_trigger_just_pressed || gp.right_trigger_just_pressed) = true
  · by_cases hmem : gp.gamepad ∈ acc.1
    · have hj : joinStep q0 acc gp = acc := by
        simp only [joinStep, hpress, if_true, if_pos hmem]
      rw [hj]
      exact ⟨h1, h2⟩
    · have hj : joinStep q0 acc gp =
          (acc.1 ++ [gp.gamepad],
           acc.2 ++
             [{ team := if gp.left_trigger_just_pressed then Team.Yellow else Team.Purple,
                is_queen := decide
                  ((if gp.left_trigger_just_pressed then Team.Yellow else Team.Purple) ∉ q0),
                player_controller := PlayerController.Gamepad gp.gamepad,
                delay := 0, start_invincible := false }]) := by
        simp only [joinStep, hpress, if_true, if_neg hmem]
      rw [hj]
      simp only [List.countP_append, List.countP_cons, List.countP_nil,
        isGamepadJoinFor_gp_event, List.mem_append, List.mem_singleton]
      by_cases hg : gp.gamepad = g
      · have hcnt0 : k + acc.2.countP (isGamepadJoinFor g) = 0 := by
          rcases Nat.lt_or_ge (k + acc.2.countP (isGamepadJoinFor g)) 1 with h | h
          · omega
          · exact absurd (h2 (Nat.le_antisymm h1 h)) (hg ▸ hmem)
        rw [if_pos (decide_eq_true hg)]
        exact ⟨by omega, fun _ => Or.inr hg.symm⟩
      · rw [if_neg (fun h => hg (of_decide_eq_true h))]
        exact ⟨by omega, fun hc => Or.inl (h2 (by omega))⟩
  · have hj : joinStep q0 acc gp = acc := by
      simp only [joinStep, hpress]
      rw [if_neg (by simp [hpress])]
    rw [hj]
    exact ⟨h1, h2⟩

theorem join_fold_count_inv :
    ∀ (gps : List GamepadInput) (q0 : List Team)
      (acc : List Nat × List SpawnPlayerEvent) (g : Nat) (k : Nat),
      k + acc.2.countP (isGamepadJoinFor g) ≤ 1 →
      (k + acc.2.countP (isGamepadJoinFor g) = 1 → g ∈ acc.1) →
      k + (gps.foldl (joinStep q0) acc).2.countP (isGamepadJoinFor g) ≤ 1 ∧
      (k + (gps.foldl (joinStep q0) acc).2.countP (isGamepadJoinFor g) = 1 →
        g ∈ (gps.foldl (joinStep q0) acc).1) := by
  intro gps
  induction gps with
  | nil =>
    intro q0 acc g k h1 h2
    exact ⟨h1, h2⟩
  | cons gp rest ih =>
    intro q0 acc g k h1 h2
    rw [List.foldl_cons]
    have hstep := joinStep_count_inv q0 acc gp g k h1 h2
    exact ih q0 _ g k hstep.1 hstep.2

theorem gamepadTickStep_inv (acc : List Nat × List SpawnPlayerEvent)
    (t : List GamepadInput × World) (g : Nat)
    (h1 : acc.2.countP (isGamepadJoinFor g) ≤ 1)
    (h2 : acc.2.countP (isGamepadJoinFor g) = 1 → g ∈ acc.1) :
    (gamepadTickStep acc t).2.countP (isGamepadJoinFor g) ≤ 1 ∧
    ((gamepadTickStep acc t).2.countP (isGamepadJoinFor g) = 1 →
      g ∈ (gamepadTickStep acc t).1) := by
  have hkey := join_fold_count_inv t.1 (queensOf t.2) (acc.1, []) g
    (acc.2.countP (isGamepadJoinFor g)) (by simpa using h1) (fun h => h2 (by simpa using h))
  have he : (gamepadTickStep acc t).2 =
      acc.2 ++ (t.1.foldl (joinStep (queensOf t.2)) (acc.1, [])).2 := rfl
  have hj : (gamepadTickStep acc t).1 =
      (t.1.foldl (joinStep (queensOf t.2)) (acc.1, [])).1 := rfl
  rw [he, List.countP_append]
  exact ⟨hkey.1, fun h => hj ▸ hkey.2 h⟩

theorem runGamepadTicks_count_inv :
    ∀ (ticks : List (List GamepadInput × World))
      (acc : List Nat × List SpawnPlayerEvent) (g : Nat),
      acc.2.countP (isGamepadJoinFor g) ≤ 1 →
      (acc.2.countP (isGamepadJoinFor g) = 1 → g ∈ acc.1) →
      (ticks.foldl gamepadTickStep acc).2.countP (isGamepadJoinFor g) ≤ 1 := by
  intro ticks
  induction ticks with
  | nil =>
    intro acc g h1 h2
    exact h1
  | cons t rest ih =>
    intro acc g h1 h2
    rw [List.foldl_cons]
    have hstep := gamepadTickStep_inv acc t g h1 h2
    exact ih _ g hstep.1 hstep.2

/-- C6 (confirmed): across any sequence of ticks starting with no emitted
events, if every drained sample carrying identity P is non-leaving then at
most one websocket join event for P is ever emitted; and across any
sequence of gamepad join ticks, at most one join event is ever emitted for
a given local gamepad (uniqueness by JoinedGamepads membership, join.rs
lines 160-171). -/
theorem c6_at_most_one_join_per_identity :
    ∀ (st : SimState) (nid : Nat) (queues : List (List ControllerState)) (P : Int)
      (joined : List Nat) (ticks : List (List GamepadInput × World)) (g : Nat),
      (∀ q ∈ queues, ∀ s ∈ q, s.player = P → s.is_leaving = false) →
      (runGame ⟨st, nid, []⟩ queues).events.countP (isWsJoinFor P) ≤ 1 ∧
      (runGamepadTicks joined ticks).2.countP (isGamepadJoinFor g) ≤ 1 := by
  intro st nid queues P joined ticks g hq
  constructor
  · exact runGame_count_inv queues ⟨st, nid, []⟩ P hq (by simp)
      (by intro h; simp at h)
  · exact runGamepadTicks_count_inv ticks (joined, []) g (by simp)
      (by intro h; simp at h)

/-- C6 witness: identity 1 sends a non-leaving sample in each of two ticks,
and gamepad 0 presses the join gesture in each of two ticks: both sides of
the theorem give at most one join event. -/
theorem c6_at_most_one_join_witness :
    (∀ q ∈ [[sA], [sA]], ∀ s ∈ q, ControllerState.player s = 1 → s.is_leaving = false) ∧
    ((runGame ⟨st0, 0, []⟩ [[sA], [sA]]).events.countP (isWsJoinFor 1) ≤ 1 ∧
     (runGamepadTicks [] [([gpL], emptyWorld), ([gpL], emptyWorld)]).2.countP
       (isGamepadJoinFor 0) ≤ 1) :=
  ⟨by decide,
   c6_at_most_one_join_per_identity st0 0 [[sA], [sA]] 1 []
     [([gpL], emptyWorld), ([gpL], emptyWorld)] 0 (by decide)⟩

end KillerQueen
